import Mathlib

/-!
Verification development for the BugFixer backend (a multi-tenant bug tracker).

The definitions below are a shallow embedding of the repository's request
handlers and ORM-backed data model.  The relational store is a record of
row lists; each Sequelize call (`findByPk`, `findOne`, `findAll`, `create`,
`update`) is modelled as the corresponding list operation; each Express
handler becomes a pure function from the store (plus the acting identity and
request input) to an HTTP outcome and the updated store.  Times are Nat
millisecond timestamps; `bcrypt.compare` and e-mail delivery are passed in as
parameters since they are external collaborators.
-/

namespace BugFixer

abbrev UserId := String

abbrev ProjectId := String

/-- Member role enum from src/src/db/models/ProjectMember.ts. -/
inductive Role where
  | VIEWER
  | MEMBER
  | ADMIN
deriving Repr, DecidableEq

/-- Bug status enum from src/src/db/models/Bug.ts. -/
inductive BugStatus where
  | TRIAGE
  | IN_PROGRESS
  | CODE_REVIEW
  | QA_TESTING
  | DEPLOYED
deriving Repr, DecidableEq

/-- Bug priority enum from src/src/db/models/Bug.ts. -/
inductive BugPriority where
  | LOW
  | MEDIUM
  | HIGH
  | CRITICAL
deriving Repr, DecidableEq

/-- Bug source enum from src/src/db/models/Bug.ts. -/
inductive BugSource where
  | CUSTOMER_REPORT
  | INTERNAL_QA
  | AUTOMATED_TEST
  | PRODUCTION_ALERT
deriving Repr, DecidableEq

/-- Access-request status enum from src/src/db/models/AccessRequest.ts. -/
inductive ReqStatus where
  | PENDING
  | APPROVED
  | REJECTED
deriving Repr, DecidableEq

/-- Invitation status enum from src/src/db/models/Invitation.ts. -/
inductive InvStatus where
  | PENDING
  | ACCEPTED
  | EXPIRED
deriving Repr, DecidableEq

/-- User row (users table; src/unnamed/part_006 User model). -/
structure UserRow where
  id : UserId
  email : String
  passwordHash : String
  name : String
  avatarUrl : Option String
deriving Repr, DecidableEq

/-- Project row (projects table; src/src/db/models/Project.ts). -/
structure ProjectRow where
  id : ProjectId
  name : String
  description : Option String
  slug : String
  isPublic : Bool
  ownerId : UserId
deriving Repr, DecidableEq

/-- Project-member row (project_members table; src/unnamed/part_006). -/
structure MemberRow where
  projectId : ProjectId
  userId : UserId
  role : Role
  invitedBy : Option UserId
deriving Repr, DecidableEq

/-- Access-request row.  Columns follow the access_requests DDL in
DATABASE_PLAN.sql (the schema the app runs against, model sync being
disabled in src/src/db/index.ts): it includes nullable reviewed_by /
reviewed_at columns, while the Sequelize model in
src/src/db/models/AccessRequest.ts declares only id, projectId, userId,
message and status, so no controller ever writes the reviewed columns. -/
structure AccessRequestRow where
  id : String
  projectId : ProjectId
  userId : UserId
  message : Option String
  status : ReqStatus
  reviewedBy : Option UserId
  reviewedAt : Option Nat
deriving Repr, DecidableEq

/-- Invitation row (invitations table; src/src/db/models/Invitation.ts). -/
structure InvitationRow where
  id : String
  email : String
  projectId : ProjectId
  role : Role
  status : InvStatus
  invitedBy : UserId
  token : String
  expiresAt : Nat
deriving Repr, DecidableEq

/-- Bug row (bugs table; src/src/db/models/Bug.ts, GitHub/agent columns
omitted: no handler modelled here reads or writes them). -/
structure BugRow where
  id : String
  title : String
  description : Option String
  priority : BugPriority
  status : BugStatus
  source : BugSource
  reporterEmail : Option String
  screenshots : Option (List String)
  projectId : ProjectId
  reporterId : Option UserId
deriving Repr, DecidableEq

/-- Widget-token row (widget_tokens table; src/src/db/models/WidgetToken.ts). -/
structure WidgetTokenRow where
  id : String
  projectId : ProjectId
  token : String
  allowedOrigins : List String
  enabled : Bool
deriving Repr, DecidableEq

/-- The relational store: one list of rows per table. -/
structure DB where
  users : List UserRow := []
  projects : List ProjectRow := []
  members : List MemberRow := []
  accessRequests : List AccessRequestRow := []
  invitations : List InvitationRow := []
  bugs : List BugRow := []
  widgetTokens : List WidgetTokenRow := []
deriving Repr, DecidableEq

/-- HTTP outcome of a handler: a success status with a payload, or an error
status with the response's error message. -/
inductive Outcome (α : Type) where
  | ok (status : Nat) (val : α)
  | fail (status : Nat) (error : String)
deriving Repr, DecidableEq

/-- JavaScript `String.prototype.toLowerCase` restricted to ASCII data. -/
def lowerStr (s : String) : String :=
  String.mk (s.data.map Char.toLower)

/-- Sequelize `User.findOne({ where: { email } })` (exact string equality:
the underlying VARCHAR comparison in Postgres is case-sensitive). -/
def findUserByEmail (db : DB) (email : String) : Option UserRow :=
  db.users.find? (fun u => u.email == email)

/-- Sequelize `User.findByPk(id)`. -/
def findUserById (db : DB) (uid : UserId) : Option UserRow :=
  db.users.find? (fun u => u.id == uid)

/-- Sequelize `Project.findByPk(id)`. -/
def findProjectById (db : DB) (pid : ProjectId) : Option ProjectRow :=
  db.projects.find? (fun p => p.id == pid)

/-- Sequelize `Project.findOne({ where: { slug } })`. -/
def findProjectBySlug (db : DB) (slug : String) : Option ProjectRow :=
  db.projects.find? (fun p => p.slug == slug)

/-- Sequelize `ProjectMember.findOne({ where: { projectId, userId } })`
with both attributes defined. -/
def findMember (db : DB) (pid : ProjectId) (uid : UserId) : Option MemberRow :=
  db.members.find? (fun m => m.projectId == pid && m.userId == uid)

/-- Sequelize `ProjectMember.findOne({ where: { projectId, userId } })` as
called with a possibly-undefined `userId` (src bug controller,
`getBugById`).  Sequelize v6 rejects `undefined` values inside a `where`
object by throwing (`WHERE parameter "userId" has invalid "undefined"
value`), which the handler's catch turns into `next(error)`; the `.error`
branch models that throw. -/
def pmFindOneOpt (db : DB) (pid : ProjectId) (uid? : Option UserId) :
    Except String (Option MemberRow) :=
  match uid? with
  | none => .error "WHERE parameter userId has invalid undefined value"
  | some uid => .ok (findMember db pid uid)

/-- Sequelize `WidgetToken.findOne({ where: { token } })`. -/
def findWidgetToken (db : DB) (tok : String) : Option WidgetTokenRow :=
  db.widgetTokens.find? (fun w => w.token == tok)

/-- User payload returned by the auth endpoints. -/
structure UserView where
  id : UserId
  email : String
  name : String
  avatarUrl : Option String
deriving Repr, DecidableEq

/-- Handler `login` from src/src/controllers/auth.controller.ts (lines
106-148).  `bcryptCompare` stands for `bcrypt.compare`; the login
notification e-mail is dispatched without awaiting and cannot affect the
response. -/
def login (db : DB) (bcryptCompare : String → String → Bool)
    (email password : String) : Outcome UserView :=
  match findUserByEmail db email with
  | none => .fail 401 "Invalid email or password"
  | some user =>
    if bcryptCompare password user.passwordHash then
      .ok 200 { id := user.id, email := user.email, name := user.name, avatarUrl := user.avatarUrl }
    else
      .fail 401 "Invalid email or password"

/-- Request body of `POST /widget/:token/bugs`
(`CreateWidgetBugInput`, src/src/types validator). -/
structure CreateWidgetBugInput where
  title : String
  description : Option String
  priority : Option BugPriority
  source : Option BugSource
  reporterEmail : Option String
  screenshots : Option (List String)
deriving Repr, DecidableEq

/-- Handler `createWidgetBug` from src/unnamed/part_004 (lines 289-360).
`origin?` is the request's Origin/Referer header already reduced to its
scheme+host (`new URL(origin).origin`), `none` when the caller sent
neither header; the origin check runs only when a header is present and
the allowlist is non-empty, exactly as in the source.  `newId` stands for
the UUID the store generates for the inserted row. -/
def createWidgetBug (db : DB) (tok : String) (origin? : Option String)
    (inp : CreateWidgetBugInput) (newId : String) : Outcome BugRow × DB :=
  match findWidgetToken db tok with
  | none => (.fail 404 "Invalid widget token", db)
  | some wt =>
    if !wt.enabled then
      (.fail 403 "Widget is disabled for this project", db)
    else
      let originBlocked :=
        match origin? with
        | none => false
        | some o =>
          decide (0 < wt.allowedOrigins.length) &&
            !(wt.allowedOrigins.contains o) && !(wt.allowedOrigins.contains "*")
      if originBlocked then
        (.fail 403 "Origin not allowed", db)
      else
        match findProjectById db wt.projectId with
        | none => (.fail 500 "Internal server error", db)
        | some project =>
          let bug : BugRow :=
            { id := newId
              title := inp.title
              description := inp.description
              priority := inp.priority.getD .MEDIUM
              status := .TRIAGE
              source := inp.source.getD .CUSTOMER_REPORT
              reporterEmail := inp.reporterEmail
              screenshots := inp.screenshots
              projectId := project.id
              reporterId := none }
          (.ok 201 bug, { db with bugs := db.bugs ++ [bug] })

/-- Role labels as serialized in responses. -/
def roleName : Role → String
  | .VIEWER => "VIEWER"
  | .MEMBER => "MEMBER"
  | .ADMIN => "ADMIN"

/-- Payload of `GET /projects/:slug`. -/
structure ProjectView where
  project : ProjectRow
  bugCount : Nat
  openBugCount : Nat
  userRole : Option String
deriving Repr, DecidableEq

/-- Handler `getProjectBySlug` from src/unnamed/part_003 (lines 109-168;
the parallelized copy in src/src/controllers/project.controller.ts has
identical access logic).  The route uses `optionalAuth`, so `userId?` is
`none` for the anonymous actor; the membership lookup runs only for an
authenticated non-owner, as in the source. -/
def getProjectBySlug (db : DB) (userId? : Option UserId) (slug : String) :
    Outcome ProjectView :=
  match findProjectBySlug db slug with
  | none => .fail 404 "Project not found"
  | some project =>
    let isOwner := userId? == some project.ownerId
    let membership : Option MemberRow :=
      match userId? with
      | some uid => if isOwner then none else findMember db project.id uid
      | none => none
    let isMember := membership.isSome
    if !project.isPublic && !isOwner && !isMember then
      .fail 403 "Access denied"
    else
      .ok 200
        { project := project
          bugCount := (db.bugs.filter (fun b => b.projectId == project.id)).length
          openBugCount :=
            (db.bugs.filter
              (fun b => b.projectId == project.id && b.status != BugStatus.DEPLOYED)).length
          userRole := if isOwner then some "OWNER" else membership.map (fun m => roleName m.role) }

/-- Handler `getBugsByProject` from the bug controller in
src/src/controllers/auth.controller.ts (lines 225-268).  Route uses
`optionalAuth`; membership is looked up only for an authenticated
non-owner. -/
def getBugsByProject (db : DB) (userId? : Option UserId) (projectId : ProjectId) :
    Outcome (List BugRow) :=
  match findProjectById db projectId with
  | none => .fail 404 "Project not found"
  | some project =>
    let isOwner := userId? == some project.ownerId
    let isMember :=
      match userId? with
      | some uid => if isOwner then false else (findMember db projectId uid).isSome
      | none => false
    if !project.isPublic && !isOwner && !isMember then
      .fail 403 "Access denied"
    else
      .ok 200 (db.bugs.filter (fun b => b.projectId == projectId))

/-- Handler `getBugById` from the bug controller in
src/src/controllers/auth.controller.ts (lines 271-309).  Unlike the other
two read handlers it does not guard the membership lookup with
`if (userId ...)`, so for the anonymous actor the lookup runs with an
undefined `userId` and Sequelize throws (see `pmFindOneOpt`); the thrown
error reaches the error handler, a 500.  A dangling `bug.projectId`
would likewise crash on `project.isPublic` (TypeError → 500). -/
def getBugById (db : DB) (userId? : Option UserId) (bugId : String) : Outcome BugRow :=
  match db.bugs.find? (fun b => b.id == bugId) with
  | none => .fail 404 "Bug not found"
  | some bug =>
    match findProjectById db bug.projectId with
    | none => .fail 500 "Internal server error"
    | some project =>
      if !project.isPublic && !(userId? == some project.ownerId) then
        match pmFindOneOpt db project.id userId? with
        | .error _ => .fail 500 "Internal server error"
        | .ok none => .fail 403 "Access denied"
        | .ok (some _) => .ok 200 bug
      else
        .ok 200 bug

/-- Request body of `POST /bugs` (`CreateBugInput`). -/
structure CreateBugInput where
  title : String
  description : Option String
  priority : Option BugPriority
  projectId : ProjectId
  source : Option BugSource
  reporterEmail : Option String
  screenshots : Option (List String)
deriving Repr, DecidableEq

/-- Handler `createBug` from the bug controller in
src/src/controllers/auth.controller.ts (lines 312-367).  The route uses
`authenticate`, so the caller is always a known user.  `newId` is the
generated row id. -/
def createBug (db : DB) (userId : UserId) (inp : CreateBugInput) (newId : String) :
    Outcome BugRow × DB :=
  match findProjectById db inp.projectId with
  | none => (.fail 404 "Project not found", db)
  | some project =>
    let isOwner := userId == project.ownerId
    let memberRole : Option Role :=
      if isOwner then none else (findMember db inp.projectId userId).map (fun m => m.role)
    let canCreate := isOwner || memberRole == some Role.ADMIN || memberRole == some Role.MEMBER
    if !canCreate then
      (.fail 403 "You do not have permission to create bugs in this project", db)
    else
      let bug : BugRow :=
        { id := newId
          title := inp.title
          description := inp.description
          priority := inp.priority.getD .MEDIUM
          status := .TRIAGE
          source := inp.source.getD .INTERNAL_QA
          reporterEmail := inp.reporterEmail
          screenshots := inp.screenshots
          projectId := inp.projectId
          reporterId := some userId }
      (.ok 201 bug, { db with bugs := db.bugs ++ [bug] })

/-- Store with one registered user, used to instantiate C10. -/
def loginDemoDb : DB :=
  { users := [{ id := "u1", email := "alice@x.com", passwordHash := "hash-a",
                name := "Alice", avatarUrl := none }] }

/-- Private demo project owned by alice, shared by several witnesses. -/
def demoProject : ProjectRow :=
  { id := "p1", name := "Demo", description := none, slug := "demo",
    isPublic := false, ownerId := "u-alice" }

/-- Enabled widget token with an empty allowlist. -/
def wOpen : WidgetTokenRow :=
  { id := "w1", projectId := "p1", token := "tok-open", allowedOrigins := [],
    enabled := true }

/-- Disabled widget token. -/
def wOff : WidgetTokenRow :=
  { id := "w2", projectId := "p1", token := "tok-off", allowedOrigins := [],
    enabled := false }

/-- Enabled widget token restricted to one origin. -/
def wStrict : WidgetTokenRow :=
  { id := "w3", projectId := "p1", token := "tok-strict",
    allowedOrigins := ["https://a.example"], enabled := true }

/-- Store with one project and three widget tokens (open, disabled,
origin-restricted), used to instantiate C6. -/
def widgetDemoDb : DB :=
  { projects := [demoProject], widgetTokens := [wOpen, wOff, wStrict] }

/-- Widget request body used to instantiate C6. -/
def widgetDemoInput : CreateWidgetBugInput :=
  { title := "Crash", description := none, priority := none, source := none,
    reporterEmail := none, screenshots := none }

/-- User row for alice. -/
def uAlice : UserRow :=
  { id := "u-alice", email := "alice@x.com", passwordHash := "h",
    name := "Alice", avatarUrl := none }

/-- User row for bob. -/
def uBob : UserRow :=
  { id := "u-bob", email := "bob@x.com", passwordHash := "h",
    name := "Bob", avatarUrl := none }

/-- Demo bug row in project p1. -/
def demoBug : BugRow :=
  { id := "b1", title := "Crash", description := none,
    priority := .MEDIUM, status := .TRIAGE, source := .INTERNAL_QA,
    reporterEmail := none, screenshots := none, projectId := "p1",
    reporterId := some "u-alice" }

/-- Store with a private project owned by alice containing one bug, and an
unrelated user bob, used for C1. -/
def privateDemoDb : DB :=
  { users := [uAlice, uBob], projects := [demoProject], bugs := [demoBug] }

/-- Membership row: bob as VIEWER of p1. -/
def memBobViewer : MemberRow :=
  { projectId := "p1", userId := "u-bob", role := .VIEWER, invitedBy := none }

/-- Membership row: carol as MEMBER of p1. -/
def memCarolMember : MemberRow :=
  { projectId := "p1", userId := "u-carol", role := .MEMBER, invitedBy := none }

/-- Store with a project owned by alice, a VIEWER bob and a MEMBER carol,
used for C2. -/
def createBugDemoDb : DB :=
  { users := [uAlice], projects := [demoProject],
    members := [memBobViewer, memCarolMember] }

/-- Bug creation request body used for C2. -/
def createBugDemoInput : CreateBugInput :=
  { title := "Crash", description := none, priority := none, projectId := "p1",
    source := none, reporterEmail := none, screenshots := none }

/-- Sequelize `AccessRequest.findByPk(requestId)`. -/
def findAccessRequestById (db : DB) (rid : String) : Option AccessRequestRow :=
  db.accessRequests.find? (fun r => r.id == rid)

/-- Sequelize `AccessRequest.findOne({ where: { projectId, userId,
status: PENDING } })` (the duplicate check of `requestAccess`). -/
def findPendingRequest (db : DB) (pid : ProjectId) (uid : UserId) :
    Option AccessRequestRow :=
  db.accessRequests.find?
    (fun r => r.projectId == pid && r.userId == uid && r.status == ReqStatus.PENDING)

/-- Count of ProjectMember rows for one (project, user) pair. -/
def countMembers (db : DB) (pid : ProjectId) (uid : UserId) : Nat :=
  (db.members.filter (fun m => m.projectId == pid && m.userId == uid)).length

/-- Call-site try/catch around a notification e-mail: whether the send
succeeds (`emailOk`) or throws, the failure is only logged and the
already-computed result is returned unchanged. -/
def caughtEmail {α : Type} (emailOk : Bool) (r : Outcome α × DB) : Outcome α × DB :=
  if emailOk then r else r

/-- Handler `requestAccess` from src/unnamed/part_002 (lines 321-392; the
copy in src/src/controllers/member.controller.ts lines 237-302 has the
same logic).  `newId` is the generated row id; the new row's status is
the column default PENDING and its reviewed columns the default NULL.
The owner-notification e-mail is wrapped in try/catch (`caughtEmail`). -/
def requestAccess (db : DB) (userId : UserId) (projectId : ProjectId)
    (message : Option String) (newId : String) (emailOk : Bool) :
    Outcome AccessRequestRow × DB :=
  match findProjectById db projectId with
  | none => (.fail 404 "Project not found", db)
  | some project =>
    if project.ownerId == userId then
      (.fail 400 "You are the owner of this project", db)
    else if (findMember db projectId userId).isSome then
      (.fail 400 "You are already a member of this project", db)
    else if (findPendingRequest db projectId userId).isSome then
      (.fail 400 "You already have a pending request for this project", db)
    else
      let ar : AccessRequestRow :=
        { id := newId, projectId := projectId, userId := userId,
          message := message, status := .PENDING,
          reviewedBy := none, reviewedAt := none }
      caughtEmail emailOk
        (.ok 201 ar, { db with accessRequests := db.accessRequests ++ [ar] })

/-- Handler `getAccessRequests` from src/unnamed/part_002 (lines 395-436),
the invitation-aware member controller iteration the spec §6/§4.1 was
written from: a caller who is neither owner nor ADMIN member gets a 200
with an empty list instead of an error.  (The older copy in
src/src/controllers/member.controller.ts lines 305-335 instead answers
403 to every non-owner.) -/
def getAccessRequests (db : DB) (userId : UserId) (projectId : ProjectId) :
    Outcome (List AccessRequestRow) :=
  match findProjectById db projectId with
  | none => .fail 404 "Project not found"
  | some project =>
    let isOwner := project.ownerId == userId
    let isAdmin :=
      if isOwner then false
      else (findMember db projectId userId).map (fun m => m.role) == some Role.ADMIN
    if !isOwner && !isAdmin then
      .ok 200 []
    else
      .ok 200 (db.accessRequests.filter (fun r => r.projectId == projectId))

/-- Store mutation of a successful approval: `accessRequest.save()` after
`accessRequest.status = 'APPROVED'` (the row with the request's id is
updated in place) followed by `ProjectMember.create` at the fixed role
MEMBER. -/
def approvedState (db : DB) (ar : AccessRequestRow) : DB :=
  { db with
    accessRequests := db.accessRequests.map
      (fun r => if r.id == ar.id then { r with status := ReqStatus.APPROVED } else r)
    members := db.members ++
      [{ projectId := ar.projectId, userId := ar.userId,
         role := Role.MEMBER, invitedBy := none }] }

/-- Handler `approveAccessRequest` (identical in
src/src/controllers/member.controller.ts lines 338-394 and
src/unnamed/part_002 lines 439-495): owner-only, PENDING-only; applies
`approvedState`; the approval e-mail failure is caught (`caughtEmail`).
A missing project row would crash on `project.ownerId` (TypeError →
500). -/
def approveAccessRequest (db : DB) (userId : UserId) (requestId : String)
    (emailOk : Bool) : Outcome String × DB :=
  match findAccessRequestById db requestId with
  | none => (.fail 404 "Access request not found", db)
  | some ar =>
    match findProjectById db ar.projectId with
    | none => (.fail 500 "Internal server error", db)
    | some project =>
      if project.ownerId != userId then
        (.fail 403 "Only the owner can approve access requests", db)
      else if ar.status != ReqStatus.PENDING then
        (.fail 400 "Request has already been processed", db)
      else
        caughtEmail emailOk
          (.ok 200 "Access request approved", approvedState db ar)

/-- Handler `rejectAccessRequest` (src/src/controllers/member.controller.ts
lines 397-446; same in src/unnamed/part_002): owner-only, PENDING-only;
flips status to REJECTED, creates no membership; rejection e-mail failure
is caught. -/
def rejectAccessRequest (db : DB) (userId : UserId) (requestId : String)
    (emailOk : Bool) : Outcome String × DB :=
  match findAccessRequestById db requestId with
  | none => (.fail 404 "Access request not found", db)
  | some ar =>
    match findProjectById db ar.projectId with
    | none => (.fail 500 "Internal server error", db)
    | some project =>
      if project.ownerId != userId then
        (.fail 403 "Only the owner can reject access requests", db)
      else if ar.status != ReqStatus.PENDING then
        (.fail 400 "Request has already been processed", db)
      else
        caughtEmail emailOk
          (.ok 200 "Access request rejected",
           { db with
             accessRequests := db.accessRequests.map
               (fun r => if r.id == ar.id then { r with status := ReqStatus.REJECTED } else r) })

/-- Request body of `POST /members/:projectId` (`AddMemberInput`). -/
structure AddMemberInput where
  email : String
  role : Option Role
deriving Repr, DecidableEq

/-- Payload of a successful `addMember`: a created membership or a created
invitation. -/
inductive AddMemberResult where
  | member (m : MemberRow)
  | invitation (inv : InvitationRow)
deriving Repr, DecidableEq

/-- Handler `addMember` from src/unnamed/part_002 (lines 83-216), the
invitation-aware member controller: owner/ADMIN only; a registered
target e-mail is added directly (rejecting the owner and existing
members); an unregistered e-mail gets a PENDING invitation with a
7-day expiry (now + 604800000 ms).  The invitation e-mail send is
awaited WITHOUT a try/catch, so if it throws after the row was created
the error propagates to the error handler (500) while the invitation
row persists — modelled by the `emailOk` branch of the invitation arm. -/
def addMember (db : DB) (userId : UserId) (projectId : ProjectId)
    (inp : AddMemberInput) (inviteToken : String) (now : Nat) (newInvId : String)
    (emailOk : Bool) : Outcome AddMemberResult × DB :=
  match findProjectById db projectId with
  | none => (.fail 404 "Project not found", db)
  | some project =>
    let isOwner := userId == project.ownerId
    let isAdmin :=
      if isOwner then false
      else (findMember db projectId userId).map (fun m => m.role) == some Role.ADMIN
    if !isOwner && !isAdmin then
      (.fail 403 "Only owner or admin can add members", db)
    else
      match findUserByEmail db inp.email with
      | some newMember =>
        if newMember.id == project.ownerId then
          (.fail 400 "User is already the owner of this project", db)
        else if (findMember db projectId newMember.id).isSome then
          (.fail 400 "User is already a member of this project", db)
        else
          let m : MemberRow :=
            { projectId := projectId, userId := newMember.id,
              role := inp.role.getD .MEMBER, invitedBy := some userId }
          (.ok 201 (.member m), { db with members := db.members ++ [m] })
      | none =>
        if (db.invitations.find? (fun i =>
              i.email == inp.email && i.projectId == projectId &&
              i.status == InvStatus.PENDING)).isSome then
          (.fail 400 "An invitation has already been sent to this email", db)
        else
          let inv : InvitationRow :=
            { id := newInvId, email := inp.email, projectId := projectId,
              role := inp.role.getD .MEMBER, status := .PENDING,
              invitedBy := userId, token := inviteToken,
              expiresAt := now + 604800000 }
          let db' := { db with invitations := db.invitations ++ [inv] }
          if emailOk then (.ok 201 (.invitation inv), db')
          else (.fail 500 "Internal server error", db')

/-- Sequelize `invitation.update({ status: ACCEPTED })`: the row with the
given id is updated in place. -/
def markInvitationAccepted (invs : List InvitationRow) (invId : String) :
    List InvitationRow :=
  invs.map (fun j => if j.id == invId then { j with status := InvStatus.ACCEPTED } else j)

/-- Sequelize `Invitation.findOne({ where: { token, status: PENDING,
expiresAt: { gt: now } } })`. -/
def findInvitationByToken (db : DB) (token : String) (now : Nat) :
    Option InvitationRow :=
  db.invitations.find?
    (fun i => i.token == token && i.status == InvStatus.PENDING && decide (now < i.expiresAt))

/-- Handler `acceptInvitation` from
src/src/controllers/invitation.controller.ts (lines 59-150): requires a
logged-in user whose e-mail matches the invitation's case-insensitively,
then creates a ProjectMember at the invitation's role (unless already a
member, in which case only the invitation is marked ACCEPTED) — with no
check that the accepting user is the project's owner. -/
def acceptInvitation (db : DB) (userId? : Option UserId) (token : String)
    (now : Nat) : Outcome (ProjectId × Option String) × DB :=
  match userId? with
  | none => (.fail 401 "Authentication required", db)
  | some userId =>
    match findUserById db userId with
    | none => (.fail 404 "User not found", db)
    | some user =>
      match findInvitationByToken db token now with
      | none => (.fail 404 "Invitation not found, expired, or already used", db)
      | some invitation =>
        if lowerStr invitation.email != lowerStr user.email then
          (.fail 403 "This invitation was sent to a different email address", db)
        else
          let projectSlug := (findProjectById db invitation.projectId).map (fun p => p.slug)
          match findMember db invitation.projectId userId with
          | some _ =>
            (.fail 400 "You are already a member of this project",
             { db with invitations := markInvitationAccepted db.invitations invitation.id })
          | none =>
            let newRow : MemberRow :=
              { projectId := invitation.projectId, userId := userId,
                role := invitation.role, invitedBy := none }
            let db1 := { db with members := db.members ++ [newRow] }
            (.ok 200 (invitation.projectId, projectSlug),
             { db1 with invitations := markInvitationAccepted db1.invitations invitation.id })

/-- Filter predicate of the invitation scan in `processPendingInvitations`:
`Invitation.findAll({ where: { email: email.toLowerCase(), status:
PENDING, expiresAt: { gt: now } } })` — note the stored e-mail is
compared for EXACT equality against the lowercased signup e-mail. -/
def invMatches (email : String) (now : Nat) (i : InvitationRow) : Bool :=
  i.email == lowerStr email && i.status == InvStatus.PENDING && decide (now < i.expiresAt)

/-- Loop body of `processPendingInvitations` (src/src/controllers/
auth.controller.ts lines 24-45): for each invitation of the snapshot, if
the user is not yet a member create a membership at the invitation's role
and count it, then mark the invitation ACCEPTED. -/
def processInvList (userId : UserId) (invs : List InvitationRow) (db : DB)
    (cnt : Nat) : Nat × DB :=
  match invs with
  | [] => (cnt, db)
  | inv :: rest =>
    let isMem := (findMember db inv.projectId userId).isSome
    let db1 :=
      if isMem then db
      else { db with members := db.members ++
        [{ projectId := inv.projectId, userId := userId, role := inv.role,
           invitedBy := none }] }
    let cnt1 := if isMem then cnt else cnt + 1
    let db2 := { db1 with invitations := markInvitationAccepted db1.invitations inv.id }
    processInvList userId rest db2 cnt1

/-- Helper `processPendingInvitations` from
src/src/controllers/auth.controller.ts (lines 11-52). -/
def processPendingInvitations (db : DB) (userId : UserId) (email : String)
    (now : Nat) : Nat × DB :=
  processInvList userId (db.invitations.filter (invMatches email now)) db 0

/-- Payload of a successful signup. -/
structure SignupResp where
  user : UserView
  invitationsProcessed : Nat
deriving Repr, DecidableEq

/-- Handler `signup` from src/src/controllers/auth.controller.ts (lines
55-103): rejects an already-used e-mail, creates the user (`passwordHash`
stands for the bcrypt output), processes pending invitations for the
e-mail, and returns the processed count in the response body; the welcome
e-mail is dispatched without awaiting. -/
def signup (db : DB) (email passwordHash name : String) (newUserId : String)
    (now : Nat) : Outcome SignupResp × DB :=
  if (findUserByEmail db email).isSome then
    (.fail 400 "Email already in use", db)
  else
    let user : UserRow :=
      { id := newUserId, email := email, passwordHash := passwordHash,
        name := name, avatarUrl := none }
    let db1 := { db with users := db.users ++ [user] }
    let r := processPendingInvitations db1 newUserId email now
    (.ok 201 { user := { id := user.id, email := user.email, name := user.name,
                         avatarUrl := user.avatarUrl },
               invitationsProcessed := r.1 }, r.2)

/-- Invariant of spec §3: no project's owner appears in the membership
table (decidable form). -/
def ownerNotListed (db : DB) : Bool :=
  db.projects.all (fun p =>
    db.members.all (fun m => !(m.projectId == p.id && m.userId == p.ownerId)))

/-- Rejected access request of dave on p1. -/
def arDaveRejected : AccessRequestRow :=
  { id := "r0", projectId := "p1", userId := "u-dave", message := none,
    status := .REJECTED, reviewedBy := none, reviewedAt := none }

/-- Pending access request of erin on p1. -/
def arErinPending : AccessRequestRow :=
  { id := "r2", projectId := "p1", userId := "u-erin", message := none,
    status := .PENDING, reviewedBy := none, reviewedAt := none }

/-- Store for C5: dave was rejected earlier, erin has a live pending
request, neither is a member. -/
def accessDemoDb : DB :=
  { users := [uAlice], projects := [demoProject],
    accessRequests := [arDaveRejected, arErinPending] }

/-- Pending access request of dave on p1 (for C4). -/
def arDavePending : AccessRequestRow :=
  { id := "r1", projectId := "p1", userId := "u-dave", message := none,
    status := .PENDING, reviewedBy := none, reviewedAt := none }

/-- Store for C4: alice owns p1, dave's request is pending, dave is not a
member. -/
def approveDemoDb : DB :=
  { users := [uAlice], projects := [demoProject],
    accessRequests := [arDavePending] }

/-- Store for C8/C9: alice owns p1, bob is a VIEWER member, one pending
access request exists. -/
def requestsDemoDb : DB :=
  { users := [uAlice], projects := [demoProject], members := [memBobViewer],
    accessRequests := [arDavePending] }

/-- Member-add request targeting an unregistered e-mail (for C9). -/
def inviteDemoInput : AddMemberInput :=
  { email := "newdev@x.com", role := none }

/-- Invitation row created by `addMember requestsDemoDb ... inviteDemoInput
"tokI" 0 "i9"`. -/
def inviteDemoRow : InvitationRow :=
  { id := "i9", email := "newdev@x.com", projectId := "p1", role := Role.MEMBER,
    status := InvStatus.PENDING, invitedBy := "u-alice", token := "tokI",
    expiresAt := 604800000 }

/-- Alice with a mixed-case stored e-mail (as typed at her signup; no layer
of the code lowercases e-mails on storage).  Used for C3. -/
def uAliceMixed : UserRow :=
  { id := "u-alice", email := "Alice@x.com", passwordHash := "h",
    name := "Alice", avatarUrl := none }

/-- Initial store for C3: alice (stored e-mail "Alice@x.com") owns the
private project p1; no members, no invitations. -/
def c3Db0 : DB :=
  { users := [uAliceMixed], projects := [demoProject] }

/-- Member-add request for the lowercase variant of alice's own e-mail:
`User.findOne({ where: { email } })` misses her row (exact match), so
`addMember` takes the invitation arm. -/
def c3Input : AddMemberInput :=
  { email := "alice@x.com", role := none }

/-- Invitation produced by the C3 trace. -/
def c3Inv : InvitationRow :=
  { id := "i1", email := "alice@x.com", projectId := "p1", role := Role.MEMBER,
    status := InvStatus.PENDING, invitedBy := "u-alice", token := "tokX",
    expiresAt := 604800000 }

/-- Pending invitation stored with a mixed-case e-mail (as typed by the
inviter), used for the C7 counterexample. -/
def invBobMixed : InvitationRow :=
  { id := "i1", email := "Bob@x.com", projectId := "p1", role := Role.MEMBER,
    status := InvStatus.PENDING, invitedBy := "u-alice", token := "t1",
    expiresAt := 100 }

/-- Store for the C7 counterexample. -/
def c7Db0 : DB :=
  { users := [uAlice], projects := [demoProject], invitations := [invBobMixed] }

/-- Pending invitation stored lowercase, matched by the C7 witness signup. -/
def invCarolLower : InvitationRow :=
  { id := "i2", email := "carol@x.com", projectId := "p1", role := Role.ADMIN,
    status := InvStatus.PENDING, invitedBy := "u-alice", token := "t2",
    expiresAt := 100 }

/-- Store for the C7 witness. -/
def c7WitnessDb : DB :=
  { users := [uAlice], projects := [demoProject], invitations := [invCarolLower] }

theorem contains_eq_false_of_not_mem {l : List String} {a : String}
    (h : a ∉ l) : l.contains a = false := by
  induction l with
  | nil => rfl
  | cons b t ih =>
    simp only [List.mem_cons, not_or] at h
    obtain ⟨h1, h2⟩ := h
    simp only [List.contains_cons, ih h2, Bool.or_false, beq_iff_eq]
    exact decide_eq_false h1

/-- C10: the login endpoint is registration-oblivious: a login with an
unregistered e-mail and a login with a registered e-mail but wrong
password both produce status 401 with body error "Invalid email or
password", hence identical observable results. -/
theorem C10_login_no_account_probe (db : DB) (cmp : String → String → Bool)
    (e₁ p₁ e₂ p₂ : String) (u : UserRow)
    (h₁ : findUserByEmail db e₁ = none)
    (h₂ : findUserByEmail db e₂ = some u)
    (h₃ : cmp p₂ u.passwordHash = false) :
    login db cmp e₁ p₁ = Outcome.fail 401 "Invalid email or password" ∧
    login db cmp e₂ p₂ = Outcome.fail 401 "Invalid email or password" ∧
    login db cmp e₁ p₁ = login db cmp e₂ p₂ := by
  simp [login, h₁, h₂, h₃]

theorem C10_witness :
    login loginDemoDb (fun _ _ => false) "ghost@x.com" "pw" =
      login loginDemoDb (fun _ _ => false) "alice@x.com" "wrong-pw" :=
  (C10_login_no_account_probe loginDemoDb (fun _ _ => false)
    "ghost@x.com" "pw" "alice@x.com" "wrong-pw"
    { id := "u1", email := "alice@x.com", passwordHash := "hash-a",
      name := "Alice", avatarUrl := none }
    (by decide) (by decide) rfl).2.2

/-- C6: widget bug creation fails for unknown tokens and disabled tokens;
with a non-empty allowlist (and no wildcard) a request carrying an origin
outside the list fails; with an empty allowlist it succeeds from any
origin, and the created bug has reporterId null, source defaulting to
CUSTOMER_REPORT, and status TRIAGE. -/
theorem C6_widget_token_and_origin (db : DB) (tok : String)
    (inp : CreateWidgetBugInput) (newId : String) :
    (findWidgetToken db tok = none → ∀ origin?,
      createWidgetBug db tok origin? inp newId =
        (Outcome.fail 404 "Invalid widget token", db)) ∧
    (∀ wt, findWidgetToken db tok = some wt → wt.enabled = false → ∀ origin?,
      createWidgetBug db tok origin? inp newId =
        (Outcome.fail 403 "Widget is disabled for this project", db)) ∧
    (∀ wt o, findWidgetToken db tok = some wt → wt.enabled = true →
      wt.allowedOrigins ≠ [] → o ∉ wt.allowedOrigins → "*" ∉ wt.allowedOrigins →
      createWidgetBug db tok (some o) inp newId =
        (Outcome.fail 403 "Origin not allowed", db)) ∧
    (∀ wt project origin?, findWidgetToken db tok = some wt → wt.enabled = true →
      wt.allowedOrigins = [] → findProjectById db wt.projectId = some project →
      ∃ bug : BugRow,
        createWidgetBug db tok origin? inp newId =
          (Outcome.ok 201 bug, { db with bugs := db.bugs ++ [bug] }) ∧
        bug.reporterId = none ∧ bug.status = BugStatus.TRIAGE ∧
        bug.source = inp.source.getD BugSource.CUSTOMER_REPORT ∧
        bug.projectId = project.id ∧ bug.title = inp.title) := by
  refine ⟨?_, ?_, ?_, ?_⟩
  · intro h origin?
    simp [createWidgetBug, h]
  · intro wt h he origin?
    simp [createWidgetBug, h, he]
  · intro wt o h he hne hmem hstar
    have hlen : 0 < wt.allowedOrigins.length := List.length_pos.mpr hne
    simp [createWidgetBug, h, he, hlen, hmem, hstar,
      contains_eq_false_of_not_mem hmem, contains_eq_false_of_not_mem hstar]
  · intro wt project origin? h he hempty hp
    refine ⟨{ id := newId, title := inp.title, description := inp.description,
              priority := inp.priority.getD .MEDIUM, status := .TRIAGE,
              source := inp.source.getD .CUSTOMER_REPORT,
              reporterEmail := inp.reporterEmail, screenshots := inp.screenshots,
              projectId := project.id, reporterId := none },
        ?_, rfl, rfl, rfl, rfl, rfl⟩
    cases origin? <;> simp [createWidgetBug, h, he, hempty, hp]

theorem C6_witness :
    createWidgetBug widgetDemoDb "tok-missing" (some "https://a.example") widgetDemoInput "b9" =
      (Outcome.fail 404 "Invalid widget token", widgetDemoDb) ∧
    createWidgetBug widgetDemoDb "tok-off" none widgetDemoInput "b9" =
      (Outcome.fail 403 "Widget is disabled for this project", widgetDemoDb) ∧
    createWidgetBug widgetDemoDb "tok-strict" (some "https://evil.example") widgetDemoInput "b9" =
      (Outcome.fail 403 "Origin not allowed", widgetDemoDb) ∧
    ∃ bug : BugRow,
      createWidgetBug widgetDemoDb "tok-open" (some "https://anywhere.example") widgetDemoInput "b9" =
        (Outcome.ok 201 bug, { widgetDemoDb with bugs := widgetDemoDb.bugs ++ [bug] }) ∧
      bug.reporterId = none ∧ bug.status = BugStatus.TRIAGE ∧
      bug.source = BugSource.CUSTOMER_REPORT ∧ bug.projectId = "p1" := by
  have h := C6_widget_token_and_origin widgetDemoDb "tok-missing" widgetDemoInput "b9"
  have h2 := C6_widget_token_and_origin widgetDemoDb "tok-off" widgetDemoInput "b9"
  have h3 := C6_widget_token_and_origin widgetDemoDb "tok-strict" widgetDemoInput "b9"
  have h4 := C6_widget_token_and_origin widgetDemoDb "tok-open" widgetDemoInput "b9"
  refine ⟨h.1 (by decide) (some "https://a.example"), ?_, ?_, ?_⟩
  · exact h2.2.1 wOff (by decide) (by decide) none
  · exact h3.2.2.1 wStrict "https://evil.example"
      (by decide) (by decide) (by decide) (by decide) (by decide)
  · obtain ⟨bug, hb, hrep, hst, hsrc, hpid, _⟩ :=
      h4.2.2.2 wOpen demoProject
        (some "https://anywhere.example") (by decide) (by decide) (by decide) (by decide)
    exact ⟨bug, hb, hrep, hst, hsrc.trans (by decide), hpid.trans (by decide)⟩

/-- C1 (amended): on a private project, the view-by-slug and list-bugs
endpoints answer 403 to every actor who is neither owner nor member,
anonymous included; the single-bug endpoint answers 403 to every such
authenticated actor but 500 to the anonymous actor (its unguarded
membership lookup runs with an undefined userId and Sequelize throws);
none of the three ever returns the project's data to such an actor. -/
theorem C1_private_project_read_access (db : DB) (uid? : Option UserId) (p : ProjectRow)
    (hpub : p.isPublic = false)
    (hown : uid? ≠ some p.ownerId)
    (hmem : ∀ uid, uid? = some uid → findMember db p.id uid = none) :
    (∀ slug, findProjectBySlug db slug = some p →
      getProjectBySlug db uid? slug = Outcome.fail 403 "Access denied") ∧
    (findProjectById db p.id = some p →
      getBugsByProject db uid? p.id = Outcome.fail 403 "Access denied") ∧
    (∀ bugId bug, db.bugs.find? (fun b => b.id == bugId) = some bug →
      bug.projectId = p.id → findProjectById db p.id = some p →
      (∀ uid, uid? = some uid →
        getBugById db uid? bugId = Outcome.fail 403 "Access denied") ∧
      (uid? = none →
        getBugById db uid? bugId = Outcome.fail 500 "Internal server error") ∧
      (∀ s v, getBugById db uid? bugId ≠ Outcome.ok s v)) := by
  refine ⟨?_, ?_, ?_⟩
  · intro slug hs
    cases uid? with
    | none => simp [getProjectBySlug, hs, hpub]
    | some uid =>
      have hne : uid ≠ p.ownerId := fun hc => hown (by rw [hc])
      simp [getProjectBySlug, hs, hpub, hne, hmem uid rfl]
  · intro hp
    cases uid? with
    | none => simp [getBugsByProject, hp, hpub]
    | some uid =>
      have hne : uid ≠ p.ownerId := fun hc => hown (by rw [hc])
      simp [getBugsByProject, hp, hpub, hne, hmem uid rfl]
  · intro bugId bug hb hbp hp
    refine ⟨?_, ?_, ?_⟩
    · intro uid huid
      subst huid
      have hne : uid ≠ p.ownerId := fun hc => hown (by rw [hc])
      simp [getBugById, hb, hbp, hp, hpub, hne, pmFindOneOpt, hmem uid rfl]
    · intro hnone
      subst hnone
      simp [getBugById, hb, hbp, hp, hpub, pmFindOneOpt]
    · intro s v
      cases uid? with
      | none => simp [getBugById, hb, hbp, hp, hpub, pmFindOneOpt]
      | some uid =>
        have hne : uid ≠ p.ownerId := fun hc => hown (by rw [hc])
        simp [getBugById, hb, hbp, hp, hpub, hne, pmFindOneOpt, hmem uid rfl]

theorem C1_counterexample :
    getBugById privateDemoDb none "b1" = Outcome.fail 500 "Internal server error" ∧
    getBugById privateDemoDb none "b1" ≠ Outcome.fail 403 "Access denied" := by
  decide

theorem C1_witness :
    getProjectBySlug privateDemoDb (some "u-bob") "demo" = Outcome.fail 403 "Access denied" ∧
    getBugsByProject privateDemoDb (some "u-bob") "p1" = Outcome.fail 403 "Access denied" ∧
    getBugById privateDemoDb (some "u-bob") "b1" = Outcome.fail 403 "Access denied" ∧
    getBugsByProject privateDemoDb none "p1" = Outcome.fail 403 "Access denied" ∧
    getBugById privateDemoDb none "b1" = Outcome.fail 500 "Internal server error" := by
  have hb := C1_private_project_read_access privateDemoDb (some "u-bob") demoProject
    (by decide) (by decide)
    (fun uid h => by injection h with h; subst h; decide)
  have ha := C1_private_project_read_access privateDemoDb none demoProject
    (by decide) (by decide) (fun uid h => nomatch h)
  refine ⟨hb.1 "demo" (by decide), hb.2.1 (by decide), ?_, ha.2.1 (by decide), ?_⟩
  · exact (hb.2.2 "b1" demoBug (by decide) (by decide) (by decide)).1 "u-bob" rfl
  · exact (ha.2.2 "b1" demoBug (by decide) (by decide) (by decide)).2.1 rfl

/-- C2: creating a bug requires write-or-above: a caller whose only
relationship to the project is a VIEWER membership gets a 403, while the
owner or a MEMBER/ADMIN member gets a 201 and the created bug has status
TRIAGE. -/
theorem C2_create_bug_requires_write (db : DB) (uid : UserId)
    (inp : CreateBugInput) (newId : String) (p : ProjectRow)
    (hp : findProjectById db inp.projectId = some p) :
    (∀ m, uid ≠ p.ownerId → findMember db inp.projectId uid = some m →
      m.role = Role.VIEWER →
      createBug db uid inp newId =
        (Outcome.fail 403 "You do not have permission to create bugs in this project", db)) ∧
    (uid = p.ownerId →
      ∃ bug : BugRow, createBug db uid inp newId =
        (Outcome.ok 201 bug, { db with bugs := db.bugs ++ [bug] }) ∧
        bug.status = BugStatus.TRIAGE) ∧
    (∀ m, uid ≠ p.ownerId → findMember db inp.projectId uid = some m →
      (m.role = Role.MEMBER ∨ m.role = Role.ADMIN) →
      ∃ bug : BugRow, createBug db uid inp newId =
        (Outcome.ok 201 bug, { db with bugs := db.bugs ++ [bug] }) ∧
        bug.status = BugStatus.TRIAGE) := by
  refine ⟨?_, ?_, ?_⟩
  · intro m hne hm hv
    simp [createBug, hp, hne, hm, hv]
  · intro he
    refine ⟨{ id := newId, title := inp.title, description := inp.description,
              priority := inp.priority.getD .MEDIUM, status := .TRIAGE,
              source := inp.source.getD .INTERNAL_QA, reporterEmail := inp.reporterEmail,
              screenshots := inp.screenshots, projectId := inp.projectId,
              reporterId := some uid }, ?_, rfl⟩
    simp [createBug, hp, he]
  · intro m hne hm hr
    refine ⟨{ id := newId, title := inp.title, description := inp.description,
              priority := inp.priority.getD .MEDIUM, status := .TRIAGE,
              source := inp.source.getD .INTERNAL_QA, reporterEmail := inp.reporterEmail,
              screenshots := inp.screenshots, projectId := inp.projectId,
              reporterId := some uid }, ?_, rfl⟩
    rcases hr with hr | hr <;> simp [createBug, hp, hne, hm, hr]

theorem C2_witness :
    createBug createBugDemoDb "u-bob" createBugDemoInput "b9" =
      (Outcome.fail 403 "You do not have permission to create bugs in this project",
        createBugDemoDb) ∧
    (∃ bug : BugRow, createBug createBugDemoDb "u-alice" createBugDemoInput "b9" =
      (Outcome.ok 201 bug, { createBugDemoDb with bugs := createBugDemoDb.bugs ++ [bug] }) ∧
      bug.status = BugStatus.TRIAGE) ∧
    (∃ bug : BugRow, createBug createBugDemoDb "u-carol" createBugDemoInput "b9" =
      (Outcome.ok 201 bug, { createBugDemoDb with bugs := createBugDemoDb.bugs ++ [bug] }) ∧
      bug.status = BugStatus.TRIAGE) := by
  have h1 := C2_create_bug_requires_write createBugDemoDb "u-bob" createBugDemoInput "b9"
    demoProject (by decide)
  have h2 := C2_create_bug_requires_write createBugDemoDb "u-alice" createBugDemoInput "b9"
    demoProject (by decide)
  have h3 := C2_create_bug_requires_write createBugDemoDb "u-carol" createBugDemoInput "b9"
    demoProject (by decide)
  refine ⟨?_, h2.2.1 rfl, ?_⟩
  · exact h1.1 memBobViewer (by decide) (by decide) rfl
  · exact h3.2.2 memCarolMember (by decide) (by decide) (Or.inl rfl)

theorem find?_update_by_id {l : List AccessRequestRow} {rid : String}
    {ar : AccessRequestRow} (f : AccessRequestRow → AccessRequestRow)
    (hfind : l.find? (fun r => r.id == rid) = some ar)
    (hid : (f ar).id = ar.id) :
    (l.map (fun r => if r.id == ar.id then f r else r)).find? (fun r => r.id == rid)
      = some (f ar) := by
  have har : ar.id = rid := by
    have h := List.find?_some hfind
    simpa using h
  induction l with
  | nil => simp at hfind
  | cons b t ih =>
    by_cases hb : b.id = rid
    · rw [List.find?_cons_of_pos _ (by simpa using hb)] at hfind
      have hba : b = ar := by injection hfind
      subst hba
      have hhead : (if b.id == b.id then f b else b) = f b := by simp
      rw [List.map_cons, hhead]
      exact List.find?_cons_of_pos _ (by simp [hid, har])
    · rw [List.find?_cons_of_neg _ (by simpa using hb)] at hfind
      have hbne : ¬(b.id = ar.id) := fun hc => hb (hc.trans har)
      have hhead : (if b.id == ar.id then f b else b) = b := by simp [hbne]
      rw [List.map_cons, hhead]
      rw [List.find?_cons_of_neg _ (by simpa using hb)]
      exact ih hfind

/-- C5: after a rejection (the old row stays REJECTED), the same user can
create a brand-new PENDING access request for the same project: the
duplicate check blocks only while a PENDING request for the pair exists. -/
theorem C5_rerequest_after_rejection (db : DB) (uid : UserId) (pid : ProjectId)
    (msg : Option String) (newId : String) (emailOk : Bool) (p : ProjectRow)
    (hp : findProjectById db pid = some p)
    (hown : p.ownerId ≠ uid)
    (hmem : findMember db pid uid = none) :
    (∀ old ∈ db.accessRequests, old.projectId = pid → old.userId = uid →
      old.status = ReqStatus.REJECTED → findPendingRequest db pid uid = none →
      requestAccess db uid pid msg newId emailOk =
        (Outcome.ok 201
          { id := newId, projectId := pid, userId := uid, message := msg,
            status := ReqStatus.PENDING, reviewedBy := none, reviewedAt := none },
         { db with accessRequests := db.accessRequests ++
            [{ id := newId, projectId := pid, userId := uid, message := msg,
               status := ReqStatus.PENDING, reviewedBy := none, reviewedAt := none }] })) ∧
    (∀ q, findPendingRequest db pid uid = some q →
      requestAccess db uid pid msg newId emailOk =
        (Outcome.fail 400 "You already have a pending request for this project", db)) := by
  constructor
  · intro old _ _ _ _ hpend
    simp [requestAccess, hp, hown, hmem, hpend, caughtEmail]
  · intro q hpend
    simp [requestAccess, hp, hown, hmem, hpend]

theorem C5_witness :
    requestAccess accessDemoDb "u-dave" "p1" none "r9" true =
      (Outcome.ok 201
        { id := "r9", projectId := "p1", userId := "u-dave", message := none,
          status := ReqStatus.PENDING, reviewedBy := none, reviewedAt := none },
       { accessDemoDb with accessRequests := accessDemoDb.accessRequests ++
          [{ id := "r9", projectId := "p1", userId := "u-dave", message := none,
             status := ReqStatus.PENDING, reviewedBy := none, reviewedAt := none }] }) ∧
    requestAccess accessDemoDb "u-erin" "p1" none "r9" true =
      (Outcome.fail 400 "You already have a pending request for this project",
       accessDemoDb) := by
  constructor
  · exact (C5_rerequest_after_rejection accessDemoDb "u-dave" "p1" none "r9" true
      demoProject (by decide) (by decide) (by decide)).1 arDaveRejected
      (by decide) (by decide) (by decide) (by decide) (by decide)
  · exact (C5_rerequest_after_rejection accessDemoDb "u-erin" "p1" none "r9" true
      demoProject (by decide) (by decide) (by decide)).2 arErinPending (by decide)

/-- C8: a caller who is neither the owner nor an ADMIN member gets a 200
with an empty list from the list-access-requests endpoint — data is
silently filtered instead of an access-denied error. -/
theorem C8_list_requests_silently_empty (db : DB) (uid : UserId)
    (pid : ProjectId) (p : ProjectRow)
    (hp : findProjectById db pid = some p)
    (hown : p.ownerId ≠ uid)
    (hadm : ∀ m, findMember db pid uid = some m → m.role ≠ Role.ADMIN) :
    getAccessRequests db uid pid = Outcome.ok 200 [] := by
  cases hm : findMember db pid uid with
  | none => simp [getAccessRequests, hp, hown, hm]
  | some m => simp [getAccessRequests, hp, hown, hm, hadm m hm]

theorem C8_witness :
    getAccessRequests requestsDemoDb "u-bob" "p1" = Outcome.ok 200 [] ∧
    requestsDemoDb.accessRequests.filter (fun r => r.projectId == "p1") ≠ [] := by
  constructor
  · exact C8_list_requests_silently_empty requestsDemoDb "u-bob" "p1" demoProject
      (by decide) (by decide)
      (fun m hm => by
        simp [show findMember requestsDemoDb "p1" "u-bob" = some memBobViewer from by decide]
          at hm
        subst hm
        decide)
  · decide

/-- C4 (amended): approving a PENDING request by the owner succeeds exactly
once: status becomes APPROVED, exactly one ProjectMember row for the
(project, requester) pair is created at the fixed role MEMBER, the
reviewedBy/reviewedAt columns are left untouched (no code path writes
them), and a second approve attempt fails with the already-processed
error and changes nothing. -/
theorem C4_approve_pending_once (db : DB) (uid : UserId) (rid : String)
    (emailOk : Bool) (ar : AccessRequestRow) (p : ProjectRow)
    (har : findAccessRequestById db rid = some ar)
    (hp : findProjectById db ar.projectId = some p)
    (hown : p.ownerId = uid)
    (hpend : ar.status = ReqStatus.PENDING)
    (hcount : countMembers db ar.projectId ar.userId = 0) :
    ∃ db' : DB,
      approveAccessRequest db uid rid emailOk =
        (Outcome.ok 200 "Access request approved", db') ∧
      db'.members = db.members ++
        [{ projectId := ar.projectId, userId := ar.userId,
           role := Role.MEMBER, invitedBy := none }] ∧
      countMembers db' ar.projectId ar.userId = 1 ∧
      findAccessRequestById db' rid = some { ar with status := ReqStatus.APPROVED } ∧
      ({ ar with status := ReqStatus.APPROVED }).reviewedBy = ar.reviewedBy ∧
      ({ ar with status := ReqStatus.APPROVED }).reviewedAt = ar.reviewedAt ∧
      (∀ eo₂, approveAccessRequest db' uid rid eo₂ =
        (Outcome.fail 400 "Request has already been processed", db')) := by
  refine ⟨approvedState db ar, ?_, rfl, ?_, ?_, rfl, rfl, ?_⟩
  · simp [approveAccessRequest, har, hp, hown, hpend, caughtEmail]
  · simp only [approvedState, countMembers, List.filter_append, List.length_append]
    rw [show (db.members.filter
        (fun m => m.projectId == ar.projectId && m.userId == ar.userId)).length = 0
      from hcount]
    simp
  · exact find?_update_by_id _ har rfl
  · intro eo₂
    have hfind' : findAccessRequestById (approvedState db ar) rid
        = some { ar with status := ReqStatus.APPROVED } :=
      find?_update_by_id _ har rfl
    have hp' : findProjectById (approvedState db ar)
        ({ ar with status := ReqStatus.APPROVED } : AccessRequestRow).projectId
        = some p := hp
    simp [approveAccessRequest, hfind', hp', hown]

theorem C4_counterexample :
    (approveAccessRequest approveDemoDb "u-alice" "r1" true).1 =
      Outcome.ok 200 "Access request approved" ∧
    findAccessRequestById (approveAccessRequest approveDemoDb "u-alice" "r1" true).2 "r1" =
      some { id := "r1", projectId := "p1", userId := "u-dave", message := none,
             status := ReqStatus.APPROVED, reviewedBy := none, reviewedAt := none } := by
  decide

theorem C4_witness :
    ∃ db' : DB,
      approveAccessRequest approveDemoDb "u-alice" "r1" true =
        (Outcome.ok 200 "Access request approved", db') ∧
      db'.members = approveDemoDb.members ++
        [{ projectId := "p1", userId := "u-dave",
           role := Role.MEMBER, invitedBy := none }] ∧
      countMembers db' "p1" "u-dave" = 1 ∧
      findAccessRequestById db' "r1" = some { arDavePending with status := ReqStatus.APPROVED } ∧
      ({ arDavePending with status := ReqStatus.APPROVED }).reviewedBy = arDavePending.reviewedBy ∧
      ({ arDavePending with status := ReqStatus.APPROVED }).reviewedAt = arDavePending.reviewedAt ∧
      (∀ eo₂, approveAccessRequest db' "u-alice" "r1" eo₂ =
        (Outcome.fail 400 "Request has already been processed", db')) :=
  C4_approve_pending_once approveDemoDb "u-alice" "r1" true arDavePending demoProject
    (by decide) (by decide) (by decide) (by decide) (by decide)

/-- C9 (amended): a notification e-mail failure never changes the result of
access-request creation, approval or rejection (the call sites catch it);
the invitation-creation e-mail in `addMember`, however, is not caught —
see the counterexample. -/
theorem C9_email_failure_not_propagated (db : DB) (uid : UserId)
    (pid : ProjectId) (msg : Option String) (newId rid : String) :
    requestAccess db uid pid msg newId true = requestAccess db uid pid msg newId false ∧
    approveAccessRequest db uid rid true = approveAccessRequest db uid rid false ∧
    rejectAccessRequest db uid rid true = rejectAccessRequest db uid rid false := by
  refine ⟨?_, ?_, ?_⟩ <;>
    simp [requestAccess, approveAccessRequest, rejectAccessRequest, caughtEmail]

theorem C9_counterexample :
    (addMember requestsDemoDb "u-alice" "p1" inviteDemoInput "tokI" 0 "i9" true).1 =
      Outcome.ok 201 (AddMemberResult.invitation inviteDemoRow) ∧
    (addMember requestsDemoDb "u-alice" "p1" inviteDemoInput "tokI" 0 "i9" false).1 =
      Outcome.fail 500 "Internal server error" ∧
    (addMember requestsDemoDb "u-alice" "p1" inviteDemoInput "tokI" 0 "i9" false).2.invitations =
      [inviteDemoRow] := by
  decide

/-- C3: the owner-is-never-a-member invariant is violated by the code.
Reachable trace: alice signs up with the stored e-mail "Alice@x.com" and
owns project p1; `addMember` targeting "alice@x.com" misses her user row
(exact-match lookup) and files an invitation; `acceptInvitation` checks
the e-mail case-insensitively but never checks project ownership, so
alice — the owner — receives a ProjectMember row for her own project. -/
theorem C3_owner_gains_membership_row :
    ownerNotListed c3Db0 = true ∧
    (addMember c3Db0 "u-alice" "p1" c3Input "tokX" 0 "i1" true).1 =
      Outcome.ok 201 (AddMemberResult.invitation c3Inv) ∧
    (acceptInvitation (addMember c3Db0 "u-alice" "p1" c3Input "tokX" 0 "i1" true).2
      (some "u-alice") "tokX" 1).1 = Outcome.ok 200 ("p1", some "demo") ∧
    findMember (acceptInvitation (addMember c3Db0 "u-alice" "p1" c3Input "tokX" 0 "i1" true).2
      (some "u-alice") "tokX" 1).2 "p1" "u-alice" =
      some { projectId := "p1", userId := "u-alice", role := Role.MEMBER, invitedBy := none } ∧
    ownerNotListed (acceptInvitation (addMember c3Db0 "u-alice" "p1" c3Input "tokX" 0 "i1" true).2
      (some "u-alice") "tokX" 1).2 = false := by
  decide

theorem mark_makes_accepted (l : List InvitationRow) (x : String) :
    ∀ j ∈ markInvitationAccepted l x, j.id = x → j.status = InvStatus.ACCEPTED := by
  intro j hj hjx
  simp only [markInvitationAccepted, List.mem_map] at hj
  obtain ⟨j0, hj0, rfl⟩ := hj
  by_cases hc : j0.id = x
  · simp [hc]
  · simp [hc] at hjx

theorem mark_preserves_accepted {l : List InvitationRow} {x : String} (y : String)
    (h : ∀ j ∈ l, j.id = x → j.status = InvStatus.ACCEPTED) :
    ∀ j ∈ markInvitationAccepted l y, j.id = x → j.status = InvStatus.ACCEPTED := by
  intro j hj hjx
  simp only [markInvitationAccepted, List.mem_map] at hj
  obtain ⟨j0, hj0, rfl⟩ := hj
  by_cases hc : j0.id = y
  · simp [hc]
  · simp [hc] at hjx ⊢
    exact h j0 hj0 hjx

theorem mark_id_map (l : List InvitationRow) (x : String) :
    (markInvitationAccepted l x).map (fun j => j.id) = l.map (fun j => j.id) := by
  simp only [markInvitationAccepted, List.map_map]
  refine List.map_congr_left ?_
  intro a _
  by_cases h2 : a.id = x <;> simp [h2]

theorem find?_append_isSome {α : Type} {p : α → Bool} {l : List α} (t : List α)
    (h : (l.find? p).isSome = true) : ((l ++ t).find? p).isSome = true := by
  induction l with
  | nil => simp [List.find?] at h
  | cons b l ih =>
    cases hb : p b with
    | true => simp [List.find?_cons_of_pos _ hb]
    | false =>
      rw [List.find?_cons_of_neg _ (by simp [hb])] at h
      rw [List.cons_append, List.find?_cons_of_neg _ (by simp [hb])]
      exact ih h

theorem find?_append_singleton_isSome {α : Type} {p : α → Bool} (l : List α)
    {a : α} (h : p a = true) : ((l ++ [a]).find? p).isSome = true := by
  induction l with
  | nil => simp [List.find?, h]
  | cons b t ih =>
    cases hb : p b with
    | true => simp [List.find?_cons_of_pos _ hb]
    | false =>
      rw [List.cons_append, List.find?_cons_of_neg _ (by simp [hb])]
      exact ih

theorem processInvList_cons (u : UserId) (inv : InvitationRow)
    (rest : List InvitationRow) (db : DB) (c : Nat) :
    processInvList u (inv :: rest) db c =
      if (findMember db inv.projectId u).isSome then
        processInvList u rest
          { db with invitations := markInvitationAccepted db.invitations inv.id } c
      else
        processInvList u rest
          { db with
            members := db.members ++
              [{ projectId := inv.projectId, userId := u, role := inv.role,
                 invitedBy := none }]
            invitations := markInvitationAccepted db.invitations inv.id } (c + 1) := by
  by_cases h : (findMember db inv.projectId u).isSome <;> simp [processInvList, h]

theorem processInvList_spec (u : UserId) (L : List InvitationRow) :
    ∀ (db : DB) (c : Nat),
      ∃ added : List MemberRow,
        (processInvList u L db c).2.members = db.members ++ added ∧
        (processInvList u L db c).1 = c + added.length ∧
        (∀ m ∈ added, m.userId = u ∧
          ∃ inv ∈ L, inv.projectId = m.projectId ∧ inv.role = m.role) ∧
        (∀ inv ∈ L, ∀ j ∈ (processInvList u L db c).2.invitations,
          j.id = inv.id → j.status = InvStatus.ACCEPTED) ∧
        (∀ inv ∈ L,
          (findMember (processInvList u L db c).2 inv.projectId u).isSome = true) ∧
        (processInvList u L db c).2.users = db.users ∧
        (processInvList u L db c).2.invitations.map (fun j => j.id) =
          db.invitations.map (fun j => j.id) ∧
        (∀ x, (∀ j ∈ db.invitations, j.id = x → j.status = InvStatus.ACCEPTED) →
          ∀ j ∈ (processInvList u L db c).2.invitations,
            j.id = x → j.status = InvStatus.ACCEPTED) ∧
        (∀ pid, (findMember db pid u).isSome = true →
          (findMember (processInvList u L db c).2 pid u).isSome = true) := by
  induction L with
  | nil =>
    intro db c
    exact ⟨[], by simp [processInvList], by simp [processInvList],
      by simp, by simp, by simp, by simp [processInvList],
      by simp [processInvList], by simp [processInvList],
      by simp [processInvList]⟩
  | cons inv rest ih =>
    intro db c
    rw [processInvList_cons]
    by_cases hMem : (findMember db inv.projectId u).isSome = true
    · rw [if_pos hMem]
      obtain ⟨added, h1, h2, h3, h4, h5, h6, h7, h8, h9⟩ :=
        ih { db with invitations := markInvitationAccepted db.invitations inv.id } c
      refine ⟨added, h1, h2, ?_, ?_, ?_, h6, ?_, ?_, ?_⟩
      · intro m hm
        obtain ⟨hu, inv', hinv', hpr⟩ := h3 m hm
        exact ⟨hu, inv', List.mem_cons_of_mem _ hinv', hpr⟩
      · intro inv0 hinv0 j hj hjid
        rcases List.mem_cons.mp hinv0 with rfl | hinv0
        · exact h8 inv0.id (mark_makes_accepted db.invitations inv0.id) j hj hjid
        · exact h4 inv0 hinv0 j hj hjid
      · intro inv0 hinv0
        rcases List.mem_cons.mp hinv0 with rfl | hinv0
        · exact h9 inv0.projectId hMem
        · exact h5 inv0 hinv0
      · rw [h7]
        exact mark_id_map db.invitations inv.id
      · intro x hx
        exact h8 x (mark_preserves_accepted inv.id hx)
      · intro pid hpid
        exact h9 pid hpid
    · rw [if_neg hMem]
      obtain ⟨added, h1, h2, h3, h4, h5, h6, h7, h8, h9⟩ :=
        ih { db with
              members := db.members ++
                [{ projectId := inv.projectId, userId := u, role := inv.role,
                   invitedBy := none }]
              invitations := markInvitationAccepted db.invitations inv.id } (c + 1)
      refine ⟨{ projectId := inv.projectId, userId := u, role := inv.role,
                invitedBy := none } :: added, ?_, ?_, ?_, ?_, ?_, h6, ?_, ?_, ?_⟩
      · rw [h1]
        simp
      · rw [h2]
        simp only [List.length_cons]
        omega
      · intro m hm
        rcases List.mem_cons.mp hm with rfl | hm
        · exact ⟨rfl, inv, List.mem_cons_self _ _, rfl, rfl⟩
        · obtain ⟨hu, inv', hinv', hpr⟩ := h3 m hm
          exact ⟨hu, inv', List.mem_cons_of_mem _ hinv', hpr⟩
      · intro inv0 hinv0 j hj hjid
        rcases List.mem_cons.mp hinv0 with rfl | hinv0
        · exact h8 inv0.id (mark_makes_accepted db.invitations inv0.id) j hj hjid
        · exact h4 inv0 hinv0 j hj hjid
      · intro inv0 hinv0
        rcases List.mem_cons.mp hinv0 with rfl | hinv0
        · refine h9 inv0.projectId ?_
          exact find?_append_singleton_isSome db.members (by simp)
        · exact h5 inv0 hinv0
      · rw [h7]
        exact mark_id_map db.invitations inv.id
      · intro x hx
        exact h8 x (mark_preserves_accepted inv.id hx)
      · intro pid hpid
        refine h9 pid ?_
        exact find?_append_isSome _ hpid

/-- C7 (amended): on a brand-new user's signup, the invitations that are
processed are exactly those whose STORED e-mail equals the lowercased
signup e-mail (the scan compares for exact equality against
`email.toLowerCase()`, so an invitation stored with a differently-cased
e-mail is skipped even though it matches case-insensitively); each
processed invitation yields a membership for its project (at the
invitation's role, skipped when a membership already exists) and is
marked ACCEPTED, and signup returns the number of memberships created. -/
theorem C7_signup_processes_exact_lowercase_matches (db : DB)
    (email passwordHash name newUserId : String) (now : Nat)
    (hnew : findUserByEmail db email = none) :
    ∃ (n : Nat) (db' : DB),
      signup db email passwordHash name newUserId now =
        (Outcome.ok 201 { user := { id := newUserId, email := email, name := name,
                                    avatarUrl := none },
                          invitationsProcessed := n }, db') ∧
      (∃ added : List MemberRow,
        db'.members = db.members ++ added ∧ added.length = n ∧
        ∀ m ∈ added, m.userId = newUserId ∧
          ∃ inv ∈ db.invitations, invMatches email now inv = true ∧
            inv.projectId = m.projectId ∧ inv.role = m.role) ∧
      (∀ inv ∈ db.invitations, invMatches email now inv = true →
        (∃ j ∈ db'.invitations, j.id = inv.id ∧ j.status = InvStatus.ACCEPTED) ∧
        (findMember db' inv.projectId newUserId).isSome = true) := by
  have hnew' : (findUserByEmail db email).isSome = false := by simp [hnew]
  obtain ⟨added, h1, h2, h3, h4, h5, _h6, h7, _h8, _h9⟩ :=
    processInvList_spec newUserId
      (db.invitations.filter (invMatches email now))
      { db with users := db.users ++
          [{ id := newUserId, email := email, passwordHash := passwordHash,
             name := name, avatarUrl := none }] } 0
  refine ⟨(processPendingInvitations
      { db with users := db.users ++
          [{ id := newUserId, email := email, passwordHash := passwordHash,
             name := name, avatarUrl := none }] } newUserId email now).1,
    (processPendingInvitations
      { db with users := db.users ++
          [{ id := newUserId, email := email, passwordHash := passwordHash,
             name := name, avatarUrl := none }] } newUserId email now).2,
    ?_, ⟨added, ?_, ?_, ?_⟩, ?_⟩
  · simp [signup, hnew', processPendingInvitations]
  · exact h1
  · show added.length =
      (processInvList newUserId
        (db.invitations.filter (invMatches email now))
        { db with users := db.users ++
            [{ id := newUserId, email := email, passwordHash := passwordHash,
               name := name, avatarUrl := none }] } 0).1
    rw [h2]
    omega
  · intro m hm
    obtain ⟨hu, inv', hinv', hpr⟩ := h3 m hm
    obtain ⟨hmem, hmatch⟩ := List.mem_filter.mp hinv'
    exact ⟨hu, inv', hmem, hmatch, hpr⟩
  · intro inv hinv hmatch
    have hinL : inv ∈ db.invitations.filter (invMatches email now) :=
      List.mem_filter.mpr ⟨hinv, hmatch⟩
    constructor
    · have hidmem : inv.id ∈
          (processPendingInvitations
            { db with users := db.users ++
                [{ id := newUserId, email := email, passwordHash := passwordHash,
                   name := name, avatarUrl := none }] } newUserId email now).2.invitations.map
            (fun j => j.id) := by
        rw [processPendingInvitations, h7]
        exact List.mem_map.mpr ⟨inv, hinv, rfl⟩
      obtain ⟨j, hj, hjid⟩ := List.mem_map.mp hidmem
      exact ⟨j, hj, hjid, h4 inv hinL j hj hjid⟩
    · exact h5 inv hinL

theorem C7_counterexample :
    lowerStr invBobMixed.email = lowerStr "bob@x.com" ∧
    invBobMixed.status = InvStatus.PENDING ∧
    0 < invBobMixed.expiresAt ∧
    (signup c7Db0 "bob@x.com" "h" "Bob" "u-bob" 0).1 =
      Outcome.ok 201 { user := { id := "u-bob", email := "bob@x.com", name := "Bob",
                                 avatarUrl := none },
                       invitationsProcessed := 0 } ∧
    findMember (signup c7Db0 "bob@x.com" "h" "Bob" "u-bob" 0).2 "p1" "u-bob" = none ∧
    (signup c7Db0 "bob@x.com" "h" "Bob" "u-bob" 0).2.invitations = [invBobMixed] := by
  decide

theorem C7_witness :
    ∃ (n : Nat) (db' : DB),
      signup c7WitnessDb "Carol@X.com" "h" "Carol" "u-carol" 0 =
        (Outcome.ok 201 { user := { id := "u-carol", email := "Carol@X.com",
                                    name := "Carol", avatarUrl := none },
                          invitationsProcessed := n }, db') ∧
      (∃ added : List MemberRow,
        db'.members = c7WitnessDb.members ++ added ∧ added.length = n ∧
        ∀ m ∈ added, m.userId = "u-carol" ∧
          ∃ inv ∈ c7WitnessDb.invitations, invMatches "Carol@X.com" 0 inv = true ∧
            inv.projectId = m.projectId ∧ inv.role = m.role) ∧
      (∀ inv ∈ c7WitnessDb.invitations, invMatches "Carol@X.com" 0 inv = true →
        (∃ j ∈ db'.invitations, j.id = inv.id ∧ j.status = InvStatus.ACCEPTED) ∧
        (findMember db' inv.projectId "u-carol").isSome = true) :=
  C7_signup_processes_exact_lowercase_matches c7WitnessDb "Carol@X.com" "h" "Carol"
    "u-carol" 0 (by decide)

end BugFixer
